import Mathlib

/-!
Shallow embedding of the identity subsystem of the `dim` media server
(`dim/src/routes/auth.rs`) and of the insert-or-get media primitive
(`src/database/src/media.rs`).

Handlers are pure state-transformers on an explicit database value.  A
handler that runs inside a write transaction returns the original database
on every error path (the transaction is rolled back before commit) and the
mutated database only when the code reaches `tx.commit()`.  Random values
produced inside the handlers (fresh invite ids, generated passwords) and
the wall clock are passed in as explicit parameters, since the model is
pure.  Operations of the `database` crate whose source is not part of the
sample (`database/user.rs`) are modelled from the specification and marked
as such in their doc comments.
-/

namespace DimAuth

/-- Error taxonomy of `errors::DimError` restricted to the variants the
embedded handlers can produce. -/
inductive DimError
  | InvalidCredentials
  | NoToken
  | Unauthorized
  | UsernameNotAvailable
  | NotFoundError
  | DatabaseError
  deriving Repr, DecidableEq

/-- Failure of a storage-layer call (`sqlx` / `diesel` errors); handlers
either propagate it, map it, or swallow it. -/
inductive DbErr
  | fail
  deriving Repr, DecidableEq

/-- A persisted row of the `users` table: username (unique key), password
credential, role tags, and the invite id this account claimed.  The
`prefs` column is omitted: every sampled insertion writes
`Default::default()` into it and no sampled handler reads it. -/
structure UserRow where
  username : String
  password : String
  roles : List String
  claimed_invite : String
  deriving Repr, DecidableEq

/-- A persisted row of the `invites` table: the invite id (an opaque
token) and its creation timestamp (`date_added`). -/
structure InviteRow where
  id : String
  date_added : Int
  deriving Repr, DecidableEq

/-- The persistent state the auth handlers touch: the `users` and
`invites` tables, each as a list of rows in storage order. -/
structure Db where
  users : List UserRow
  invites : List InviteRow
  deriving Repr, DecidableEq

/-- The JSON body of login/registration requests (`database::user::Login`):
username, password and an optional invite token. -/
structure Login where
  username : String
  password : String
  invite_token : Option String
  deriving Repr, DecidableEq

/-- Claims recovered from a verified JWT: the username and the role set. -/
structure Claims where
  username : String
  roles : List String
  deriving Repr, DecidableEq

/-- Role test on claims (`claims.has_role`): membership in the role set. -/
def Claims.has_role (c : Claims) (r : String) : Bool :=
  c.roles.contains r

/-- Modelled from the spec: token issuance (`jwt_generate`) is a pure
function of the username and the role set, §4.2 of the spec; the signing
secret is process-wide and constant, so the token is modelled as an
injective encoding of the two inputs. -/
def jwt_generate (username : String) (roles : List String) : String :=
  "jwt." ++ username ++ "." ++ String.intercalate "," roles

/-- Modelled from the spec: `User::get` (in `database/user.rs`, not part
of the sample) looks a user up by its unique username; absence is a
storage-level error. -/
def User.get (db : Db) (username : String) : Except DbErr UserRow :=
  match db.users.find? (fun u => u.username == username) with
  | some u => Except.ok u
  | none => Except.error DbErr.fail

/-- Modelled from the spec: `User::get_all` returns every user row. -/
def User.get_all (db : Db) : List UserRow :=
  db.users

/-- Modelled from the spec: `Login::new_invite` = `createInvite` of §4.3:
inserts a new invite with a fresh random id and the current timestamp and
returns the id; the fresh id and the clock are explicit parameters. -/
def Login.new_invite (fresh : String) (now : Int) (db : Db) : String × Db :=
  (fresh, { db with invites := db.invites ++ [⟨fresh, now⟩] })

/-- Modelled from the spec: `isValidUnclaimed` of §4.3 — true iff an
invite with that id exists and no user's claimed-invite references it. -/
def isValidUnclaimed (db : Db) (token : String) : Bool :=
  db.invites.any (fun i => i.id == token) &&
    !(db.users.any (fun u => u.claimed_invite == token))

/-- Modelled from the spec: `Login::invite_token_valid` applies
`isValidUnclaimed` to the submitted token; an absent token is not valid. -/
def Login.invite_token_valid (l : Login) (db : Db) : Bool :=
  match l.invite_token with
  | some t => isValidUnclaimed db t
  | none => false

/-- Modelled from the spec: `InsertableUser::insert` appends the user row;
a username collision fails from the unique-key constraint (§4.5) and the
call returns the inserted username on success. -/
def InsertableUser.insert (u : UserRow) (db : Db) : Except DimError (String × Db) :=
  if db.users.any (fun x => x.username == u.username) then
    Except.error DimError.UsernameNotAvailable
  else
    Except.ok (u.username, { db with users := db.users ++ [u] })

/-- The `register` handler (`auth.rs` lines 392-438).  Inside one write
transaction: read whether any users exist; against a non-empty user set
reject an absent or invalid invite token with `NoToken`; pick roles
`owner`/`user` by the bootstrap test; synthesize a fresh invite on the
bootstrap branch or adopt the submitted token on the gated branch; insert
the user; commit.  Every error path rolls the transaction back, so the
returned database is the original one there. -/
def register (new_user : Login) (fresh : String) (now : Int) (db : Db) :
    Except DimError String × Db :=
  let users_empty := (User.get_all db).isEmpty
  if !users_empty &&
      (new_user.invite_token.isNone || !(Login.invite_token_valid new_user db)) then
    (Except.error DimError.NoToken, db)
  else
    let step : Except DimError (String × Db) :=
      if users_empty then
        Except.ok (Login.new_invite fresh now db)
      else
        match new_user.invite_token with
        | some t => Except.ok (t, db)
        | none => Except.error DimError.NoToken
    match step with
    | Except.error e => (Except.error e, db)
    | Except.ok (claimed_invite, db1) =>
      let roles := if !users_empty then ["user"] else ["owner"]
      match InsertableUser.insert ⟨new_user.username, new_user.password, roles, claimed_invite⟩ db1 with
      | Except.error e => (Except.error e, db)
      | Except.ok (res, db2) => (Except.ok res, db2)

/-- Outcome of `headers_login`: either a `DimError` wrapped into
`HeadersLoginError::DimError` or `ForwardAuthDisabled`. -/
inductive HLErr
  | ForwardAuthDisabled
  | Dim (e : DimError)
  deriving Repr, DecidableEq

/-- The reply built by `headers_login`: a redirect (`redirect::found("/")`)
with one extra header attached by `reply::with_header`. -/
structure HLResp where
  is_redirect : Bool
  header_name : String
  header_value : String
  deriving Repr, DecidableEq

/-- The `headers_login` handler (`auth.rs` lines 309-369).  When the
forwarded-auth setting is enabled: look the asserted username up; if it
exists, reply with a redirect whose `Set-Cookie` header carries the token
cookie; otherwise create the account with a generated password, roles
`["user"]` and a freshly synthesized invite, commit, and reply with a
redirect whose `token` header carries the token.  When the setting is
disabled, fail with `ForwardAuthDisabled`.  The generated password and
the fresh invite id are explicit parameters. -/
def headers_login (enabled : Bool) (pw fresh : String) (now : Int)
    (username : String) (db : Db) : Except HLErr HLResp × Db :=
  if enabled then
    match User.get db username with
    | Except.ok user =>
        (Except.ok ⟨true, "Set-Cookie", "token=" ++ jwt_generate user.username user.roles⟩, db)
    | Except.error _ =>
        let roles := ["user"]
        let step := Login.new_invite fresh now db
        match InsertableUser.insert ⟨username, pw, roles, step.1⟩ step.2 with
        | Except.error e => (Except.error (HLErr.Dim e), db)
        | Except.ok (_, db2) =>
            (Except.ok ⟨true, "token", jwt_generate username roles⟩, db2)
  else
    (Except.error HLErr.ForwardAuthDisabled, db)

/-- One row of the invite listing (`struct Row` inside `get_all_invites`):
invite id, creation time, and the claiming username when there is one. -/
structure InviteListRow where
  id : String
  created : Int
  claimed_by : Option String
  deriving Repr, DecidableEq

/-- Ordering of invite rows used by the `ORDER BY created ASC` clause. -/
def inviteLe (a b : InviteRow) : Prop :=
  a.date_added ≤ b.date_added

instance : DecidableRel inviteLe :=
  fun a b => inferInstanceAs (Decidable (a.date_added ≤ b.date_added))

instance : IsTotal InviteRow inviteLe :=
  ⟨fun a b => Int.le_total a.date_added b.date_added⟩

instance : IsTrans InviteRow inviteLe :=
  ⟨fun _ _ _ hab hbc => le_trans hab hbc⟩

/-- Ordering of listing rows by the `created` column, ascending. -/
def rowLe (a b : InviteListRow) : Prop :=
  a.created ≤ b.created

instance : DecidableRel rowLe :=
  fun a b => inferInstanceAs (Decidable (a.created ≤ b.created))

/-- The first query of `get_all_invites`: invites whose id no user has
claimed, with `claimed_by` null, `ORDER BY created ASC`. -/
def unclaimedQuery (db : Db) : List InviteListRow :=
  (List.insertionSort inviteLe
      (db.invites.filter (fun i => !(db.users.any (fun u => u.claimed_invite == i.id))))).map
    (fun i => ⟨i.id, i.date_added, none⟩)

/-- The second query of `get_all_invites`: `invites INNER JOIN users ON
users.claimed_invite = invites.id`, with no `ORDER BY` clause, so the rows
come back in storage order of the joined tables. -/
def claimedQuery (db : Db) : List InviteListRow :=
  (db.invites.map (fun i =>
      (db.users.filter (fun u => u.claimed_invite == i.id)).map
        (fun u => (⟨i.id, i.date_added, some u.username⟩ : InviteListRow)))).flatten

/-- A `fetch_all` call against the store: the boolean injects the storage
failure the handler may observe; on success it yields the query's rows. -/
def fetch_all (fail : Bool) (rows : List InviteListRow) : Except DbErr (List InviteListRow) :=
  if fail then Except.error DbErr.fail else Except.ok rows

/-- Rust's `Result::unwrap_or_default` at type `Vec<Row>`: an error
becomes the empty list. -/
def unwrap_or_default : Except DbErr (List InviteListRow) → List InviteListRow
  | Except.ok v => v
  | Except.error _ => []

/-- The `get_all_invites` handler (`auth.rs` lines 440-481): owners get
the unclaimed query's rows followed by the claimed query's rows, each
fetch wrapped in `unwrap_or_default`; anyone else gets `Unauthorized`.
`fail1`/`fail2` inject a storage failure into the two fetches. -/
def get_all_invites (user : Claims) (db : Db) (fail1 fail2 : Bool) :
    Except DimError (List InviteListRow) :=
  if user.has_role "owner" then
    let row := unwrap_or_default (fetch_all fail1 (unclaimedQuery db))
    let row := row ++ unwrap_or_default (fetch_all fail2 (claimedQuery db))
    Except.ok row
  else
    Except.error DimError.Unauthorized

/-- The `generate_invite` handler (`auth.rs` lines 483-499): reject
non-owners with `Unauthorized`, otherwise create a fresh invite inside a
write transaction and commit. -/
def generate_invite (user : Claims) (fresh : String) (now : Int) (db : Db) :
    Except DimError String × Db :=
  if !(user.has_role "owner") then
    (Except.error DimError.Unauthorized, db)
  else
    let step := Login.new_invite fresh now db
    (Except.ok step.1, step.2)

/-- Modelled from the spec: `Login::delete_token` = `deleteInvite` of
§4.3 — fails with `NotFound` when the invite is absent, otherwise removes
it. -/
def Login.delete_token (token : String) (db : Db) : Except DimError Db :=
  if db.invites.any (fun i => i.id == token) then
    Except.ok { db with invites := db.invites.filter (fun i => !(i.id == token)) }
  else
    Except.error DimError.NotFoundError

/-- The `delete_invite` handler (`auth.rs` lines 501-516): reject
non-owners with `Unauthorized`, otherwise delete the token inside a write
transaction and commit; a failing delete rolls back. -/
def delete_invite (user : Claims) (token : String) (db : Db) :
    Except DimError Unit × Db :=
  if !(user.has_role "owner") then
    (Except.error DimError.Unauthorized, db)
  else
    match Login.delete_token token db with
    | Except.error e => (Except.error e, db)
    | Except.ok db1 => (Except.ok (), db1)

/-- Modelled from the spec: `User::get_one` retrieves the user by
username and verifies the candidate password against the currently
persisted credential via the opaque `verify` capability of §4.1; any
mismatch or absent user is an error.  `verify` is passed in as a
function, matching the spec's opaque
`verify(username, stored, candidate) -> bool`. -/
def User.get_one (verify : String → String → String → Bool) (db : Db)
    (username password : String) : Except DbErr UserRow :=
  match User.get db username with
  | Except.error e => Except.error e
  | Except.ok u =>
      if verify u.username u.password password then Except.ok u
      else Except.error DbErr.fail

/-- Modelled from the spec: `User::delete` removes the row with the given
username; deletion is terminal (§3). -/
def User.delete (db : Db) (username : String) : Db :=
  { db with users := db.users.filter (fun u => !(u.username == username)) }

/-- The `user_delete_self` handler (`auth.rs` lines 536-552): re-verify
the acting user's current password via `User::get_one`, mapping any
failure to `InvalidCredentials` with the transaction rolled back; on
success delete the user and commit. -/
def user_delete_self (verify : String → String → String → Bool)
    (user : Claims) (password : String) (db : Db) : Except DimError Unit × Db :=
  match User.get_one verify db user.username password with
  | Except.error _ => (Except.error DimError.InvalidCredentials, db)
  | Except.ok _ => (Except.ok (), User.delete db user.username)

end DimAuth

namespace DimMedia

/-- The media kinds of `library::MediaType`. -/
inductive MediaType
  | movie
  | tv
  | episode
  deriving Repr, DecidableEq

/-- A row of the `library` table; only the id is consulted by
`InsertableMedia::insert`, the rest is carried for fidelity. -/
structure LibraryRow where
  id : Int
  name : String
  location : String
  media_type : MediaType
  deriving Repr, DecidableEq

/-- A persisted row of the `media` table (`struct Media`). -/
structure MediaRow where
  id : Int
  library_id : Int
  name : String
  description : Option String
  rating : Option Int
  year : Option Int
  added : Option String
  poster_path : Option String
  backdrop_path : Option String
  media_type : Option MediaType
  deriving Repr, DecidableEq

/-- The to-be-inserted media value (`struct InsertableMedia`): a
`MediaRow` without the id. -/
structure InsertableMedia where
  library_id : Int
  name : String
  description : Option String
  rating : Option Int
  year : Option Int
  added : String
  poster_path : Option String
  backdrop_path : Option String
  media_type : MediaType
  deriving Repr, DecidableEq

/-- The store the media primitive touches: the `library` and `media`
tables plus the auto-increment id counter for `media`. -/
structure MediaDb where
  libraries : List LibraryRow
  media : List MediaRow
  next_id : Int
  deriving Repr, DecidableEq

/-- The `media` row produced for `m` by the insert branch. -/
def newMediaRow (m : InsertableMedia) (id : Int) : MediaRow :=
  ⟨id, m.library_id, m.name, m.description, m.rating, m.year, some m.added,
    m.poster_path, m.backdrop_path, some m.media_type⟩

/-- `InsertableMedia::insert` (`media.rs` lines 366-407).  First the
library row is fetched (`first_async`), failing when absent; then, inside
one serializable transaction (retried on serialization failure, which the
sequential model never raises): read the id of the first `media` row with
the same `name`; if one exists return its id without inserting, otherwise
insert the new row and return the fresh id. -/
def InsertableMedia.insert (m : InsertableMedia) (db : MediaDb) :
    Except DimAuth.DbErr (Int × MediaDb) :=
  if !(db.libraries.any (fun l => l.id == m.library_id)) then
    Except.error DimAuth.DbErr.fail
  else
    match db.media.find? (fun r => r.name == m.name) with
    | some r => Except.ok (r.id, db)
    | none =>
        Except.ok (db.next_id,
          { db with media := db.media ++ [newMediaRow m db.next_id],
                    next_id := db.next_id + 1 })

/-- The rows of the `media` table matching the natural key (`name`) of
`m`. -/
def matching (m : InsertableMedia) (db : MediaDb) : List MediaRow :=
  db.media.filter (fun r => r.name == m.name)

end DimMedia

namespace DimAuth

/-- C1: against an empty user set, `register` succeeds for every request:
the created account's roles are exactly `["owner"]`, a fresh invite is
synthesized (appended to the invites table) and recorded as the account's
claimed invite, and this holds whatever `invite_token` the request
carries; a supplied token distinct from the fresh id stays exactly as
valid-unclaimed as it was, i.e. it is not consumed. -/
theorem register_bootstrap_owner (new_user : Login) (fresh : String) (now : Int)
    (db : Db) (hempty : db.users = []) :
    register new_user fresh now db =
      (Except.ok new_user.username,
        ⟨[⟨new_user.username, new_user.password, ["owner"], fresh⟩],
          db.invites ++ [⟨fresh, now⟩]⟩) ∧
    (∀ t, new_user.invite_token = some t → t ≠ fresh →
      isValidUnclaimed (register new_user fresh now db).2 t = isValidUnclaimed db t) := by
  obtain ⟨users, invites⟩ := db
  simp only [Db.mk.injEq] at hempty ⊢
  subst hempty
  have hreg : register new_user fresh now ⟨[], invites⟩ =
      (Except.ok new_user.username,
        ⟨[⟨new_user.username, new_user.password, ["owner"], fresh⟩],
          invites ++ [⟨fresh, now⟩]⟩) := by
    simp [register, User.get_all, Login.new_invite, InsertableUser.insert]
  refine ⟨by simpa using hreg, ?_⟩
  intro t _ hne
  rw [hreg]
  have hbe : (fresh == t) = false := beq_eq_false_iff_ne.mpr (Ne.symm hne)
  simp [isValidUnclaimed, List.any_append, hbe]

/-- C1 witness: the bootstrap registration at a concrete request that
does supply an invite token, against an empty user set holding one
unclaimed invite. -/
theorem register_bootstrap_owner_witness :
    register ⟨"alice", "pw", some "tok"⟩ "inv1" 7 ⟨[], [⟨"tok", 3⟩]⟩ =
      (Except.ok "alice",
        ⟨[⟨"alice", "pw", ["owner"], "inv1"⟩], [⟨"tok", 3⟩, ⟨"inv1", 7⟩]⟩) :=
  (register_bootstrap_owner ⟨"alice", "pw", some "tok"⟩ "inv1" 7 ⟨[], [⟨"tok", 3⟩]⟩ rfl).1

/-- C2: against a non-empty user set, a request whose invite token is
absent or not a valid unclaimed invite fails with `NoToken` and leaves
the database (users and invites) exactly as before; a request carrying a
valid unclaimed token for a still-free username succeeds, the created
account's roles are exactly `["user"]`, and its claimed invite is the
submitted token. -/
theorem register_gated (new_user : Login) (fresh : String) (now : Int) (db : Db)
    (hne : db.users ≠ []) :
    (Login.invite_token_valid new_user db = false →
      register new_user fresh now db = (Except.error DimError.NoToken, db)) ∧
    (∀ t, new_user.invite_token = some t → isValidUnclaimed db t = true →
      db.users.any (fun u => u.username == new_user.username) = false →
      register new_user fresh now db =
        (Except.ok new_user.username,
          { db with users :=
              db.users ++ [⟨new_user.username, new_user.password, ["user"], t⟩] })) := by
  have hempty : (User.get_all db).isEmpty = false := by
    simpa [User.get_all, List.isEmpty_iff] using hne
  constructor
  · intro hval
    simp [register, hempty, hval]
  · intro t ht hval hfree
    have hvalid : Login.invite_token_valid new_user db = true := by
      simp [Login.invite_token_valid, ht, hval]
    simp [register, hempty, hvalid, ht, InsertableUser.insert, hfree]

/-- C2 witness: the gated branch at concrete inputs, in both directions —
a token-less request is rejected with the database untouched, and a
request with a valid unclaimed token creates a `["user"]` account
claiming it. -/
theorem register_gated_witness :
    register ⟨"bob", "pw2", none⟩ "f" 9
        ⟨[⟨"alice", "pw", ["owner"], "inv0"⟩], [⟨"tok", 3⟩]⟩ =
      (Except.error DimError.NoToken,
        ⟨[⟨"alice", "pw", ["owner"], "inv0"⟩], [⟨"tok", 3⟩]⟩) ∧
    register ⟨"bob", "pw2", some "tok"⟩ "f" 9
        ⟨[⟨"alice", "pw", ["owner"], "inv0"⟩], [⟨"tok", 3⟩]⟩ =
      (Except.ok "bob",
        ⟨[⟨"alice", "pw", ["owner"], "inv0"⟩, ⟨"bob", "pw2", ["user"], "tok"⟩],
          [⟨"tok", 3⟩]⟩) :=
  ⟨(register_gated ⟨"bob", "pw2", none⟩ "f" 9
      ⟨[⟨"alice", "pw", ["owner"], "inv0"⟩], [⟨"tok", 3⟩]⟩ (by simp)).1 rfl,
   (register_gated ⟨"bob", "pw2", some "tok"⟩ "f" 9
      ⟨[⟨"alice", "pw", ["owner"], "inv0"⟩], [⟨"tok", 3⟩]⟩ (by simp)).2
     "tok" rfl (by rfl) (by rfl)⟩

/-- C8: a request whose verified claims lack the role `owner` is rejected
with `Unauthorized` by the invite listing, by invite creation and by
invite deletion, and the latter two hand back the database untouched
(invite listing only reads). -/
theorem owner_gate_unauthorized (user : Claims) (db : Db) (fresh token : String)
    (now : Int) (fail1 fail2 : Bool) (h : user.has_role "owner" = false) :
    get_all_invites user db fail1 fail2 = Except.error DimError.Unauthorized ∧
    generate_invite user fresh now db = (Except.error DimError.Unauthorized, db) ∧
    delete_invite user token db = (Except.error DimError.Unauthorized, db) := by
  refine ⟨?_, ?_, ?_⟩ <;> simp [get_all_invites, generate_invite, delete_invite, h]

/-- C8 witness: a non-owner (`["user"]` claims) is turned away by all
three invite operations at a concrete database. -/
theorem owner_gate_unauthorized_witness :
    get_all_invites ⟨"bob", ["user"]⟩ ⟨[], [⟨"tok", 3⟩]⟩ false false =
        Except.error DimError.Unauthorized ∧
    generate_invite ⟨"bob", ["user"]⟩ "f" 9 ⟨[], [⟨"tok", 3⟩]⟩ =
        (Except.error DimError.Unauthorized, ⟨[], [⟨"tok", 3⟩]⟩) ∧
    delete_invite ⟨"bob", ["user"]⟩ "tok" ⟨[], [⟨"tok", 3⟩]⟩ =
        (Except.error DimError.Unauthorized, ⟨[], [⟨"tok", 3⟩]⟩) :=
  owner_gate_unauthorized ⟨"bob", ["user"]⟩ ⟨[], [⟨"tok", 3⟩]⟩ "f" "tok" 9
    false false (by rfl)

/-- C9: self-deletion re-verifies the current persisted credential — if
`verify` rejects the supplied password against the stored row the request
fails with `InvalidCredentials` and the database is handed back
untouched; only when `verify` accepts is the acting user's row removed. -/
theorem user_delete_self_reverify (verify : String → String → String → Bool)
    (c : Claims) (password : String) (db : Db) :
    (∀ u, User.get db c.username = Except.ok u →
      verify u.username u.password password = false →
      user_delete_self verify c password db = (Except.error DimError.InvalidCredentials, db)) ∧
    (∀ u, User.get db c.username = Except.ok u →
      verify u.username u.password password = true →
      user_delete_self verify c password db =
        (Except.ok (), ⟨db.users.filter (fun x => !(x.username == c.username)), db.invites⟩)) := by
  constructor
  · intro u hu hv
    simp [user_delete_self, User.get_one, hu, hv]
  · intro u hu hv
    simp [user_delete_self, User.get_one, hu, hv, User.delete]

/-- C9 witness: at a concrete single-user database a wrong password
leaves the account intact with `InvalidCredentials`, and the right
password deletes it; `verify` is plain string comparison of stored and
candidate password. -/
theorem user_delete_self_reverify_witness :
    user_delete_self (fun _ stored cand => stored == cand) ⟨"alice", ["owner"]⟩ "wrong"
        ⟨[⟨"alice", "pw", ["owner"], "inv0"⟩], []⟩ =
      (Except.error DimError.InvalidCredentials,
        ⟨[⟨"alice", "pw", ["owner"], "inv0"⟩], []⟩) ∧
    user_delete_self (fun _ stored cand => stored == cand) ⟨"alice", ["owner"]⟩ "pw"
        ⟨[⟨"alice", "pw", ["owner"], "inv0"⟩], []⟩ =
      (Except.ok (), ⟨[], []⟩) :=
  ⟨(user_delete_self_reverify (fun _ stored cand => stored == cand) ⟨"alice", ["owner"]⟩
      "wrong" ⟨[⟨"alice", "pw", ["owner"], "inv0"⟩], []⟩).1
      ⟨"alice", "pw", ["owner"], "inv0"⟩ (by rfl) (by rfl),
   (user_delete_self_reverify (fun _ stored cand => stored == cand) ⟨"alice", ["owner"]⟩
      "pw" ⟨[⟨"alice", "pw", ["owner"], "inv0"⟩], []⟩).2
      ⟨"alice", "pw", ["owner"], "inv0"⟩ (by rfl) (by rfl)⟩

end DimAuth

namespace DimMedia

/-- Rows appended by the insert branch match the natural key. -/
theorem newMediaRow_name (m : InsertableMedia) (id : Int) :
    (newMediaRow m id).name = m.name := rfl

/-- C3: `InsertableMedia::insert` is insert-or-get over the natural key
`name` (given that the referenced library exists and the key is honoured
by the starting table): when a matching row exists its id is returned and
the store is unchanged; when none exists exactly one new row is appended
and its fresh id returned; consequently two successive calls with the
same value return the same id, the second call changes nothing, and
exactly one matching row remains. -/
theorem insertableMedia_insert_or_get (m : InsertableMedia) (db : MediaDb)
    (hlib : db.libraries.any (fun l => l.id == m.library_id) = true)
    (hkey : (matching m db).length ≤ 1) :
    (∀ r, db.media.find? (fun r => r.name == m.name) = some r →
      InsertableMedia.insert m db = Except.ok (r.id, db)) ∧
    (db.media.find? (fun r => r.name == m.name) = none →
      InsertableMedia.insert m db =
        Except.ok (db.next_id,
          ⟨db.libraries, db.media ++ [newMediaRow m db.next_id], db.next_id + 1⟩)) ∧
    (∀ i1 db1 i2 db2,
      InsertableMedia.insert m db = Except.ok (i1, db1) →
      InsertableMedia.insert m db1 = Except.ok (i2, db2) →
      i1 = i2 ∧ db2 = db1 ∧ (matching m db1).length = 1) := by
  refine ⟨?_, ?_, ?_⟩
  · intro r hr
    simp [InsertableMedia.insert, hlib, hr]
  · intro hnone
    simp [InsertableMedia.insert, hlib, hnone]
  · intro i1 db1 i2 db2 h1 h2
    cases hfind : db.media.find? (fun r => r.name == m.name) with
    | some r =>
      have e1 : InsertableMedia.insert m db = Except.ok (r.id, db) := by
        simp [InsertableMedia.insert, hlib, hfind]
      rw [e1] at h1
      have h1' : r.id = i1 ∧ db = db1 := by simpa using h1
      rw [← h1'.2, e1] at h2
      have h2' : r.id = i2 ∧ db = db2 := by simpa using h2
      have hp := List.find?_some hfind
      have hmem : r ∈ matching m db :=
        List.mem_filter.mpr ⟨List.mem_of_find?_eq_some hfind, hp⟩
      have hpos : 0 < (matching m db).length := List.length_pos.mpr (by
        intro hnil
        rw [hnil] at hmem
        exact absurd hmem (List.not_mem_nil r))
      refine ⟨h1'.1.symm.trans h2'.1, h2'.2.symm.trans h1'.2, ?_⟩
      rw [← h1'.2]
      exact le_antisymm hkey hpos
    | none =>
      have e1 : InsertableMedia.insert m db =
          Except.ok (db.next_id,
            ⟨db.libraries, db.media ++ [newMediaRow m db.next_id], db.next_id + 1⟩) := by
        simp [InsertableMedia.insert, hlib, hfind]
      rw [e1] at h1
      have h1' : db.next_id = i1 ∧
          (⟨db.libraries, db.media ++ [newMediaRow m db.next_id], db.next_id + 1⟩ : MediaDb)
            = db1 := by simpa using h1
      have hfind1 : (db.media ++ [newMediaRow m db.next_id]).find?
          (fun r => r.name == m.name) = some (newMediaRow m db.next_id) := by
        rw [List.find?_append, hfind]
        simp [List.find?, newMediaRow_name]
      have e2 : InsertableMedia.insert m
          ⟨db.libraries, db.media ++ [newMediaRow m db.next_id], db.next_id + 1⟩ =
          Except.ok (db.next_id,
            ⟨db.libraries, db.media ++ [newMediaRow m db.next_id], db.next_id + 1⟩) := by
        simp [InsertableMedia.insert, hlib, hfind, newMediaRow]
      rw [← h1'.2, e2] at h2
      have h2' : db.next_id = i2 ∧
          (⟨db.libraries, db.media ++ [newMediaRow m db.next_id], db.next_id + 1⟩ : MediaDb)
            = db2 := by simpa using h2
      have hnil : db.media.filter (fun r => r.name == m.name) = [] :=
        List.filter_eq_nil_iff.mpr (List.find?_eq_none.mp hfind)
      refine ⟨h1'.1.symm.trans h2'.1, h2'.2.symm.trans h1'.2, ?_⟩
      rw [← h1'.2]
      simp [matching, List.filter_append, hnil, newMediaRow_name]

/-- C3 witness: two successive inserts of the same value into a store
holding its library and an unrelated media row — the first insert appends
exactly one row, the second returns the same id and changes nothing. -/
theorem insertableMedia_insert_or_get_witness :
    InsertableMedia.insert ⟨1, "Dune", none, none, none, "2021", none, none, .movie⟩
        ⟨[⟨1, "films", "/data", .movie⟩],
         [⟨7, 1, "Alien", none, none, none, some "1979", none, none, some .movie⟩], 8⟩ =
      Except.ok (8,
        ⟨[⟨1, "films", "/data", .movie⟩],
         [⟨7, 1, "Alien", none, none, none, some "1979", none, none, some .movie⟩,
          ⟨8, 1, "Dune", none, none, none, some "2021", none, none, some .movie⟩], 9⟩) ∧
    InsertableMedia.insert ⟨1, "Dune", none, none, none, "2021", none, none, .movie⟩
        ⟨[⟨1, "films", "/data", .movie⟩],
         [⟨7, 1, "Alien", none, none, none, some "1979", none, none, some .movie⟩,
          ⟨8, 1, "Dune", none, none, none, some "2021", none, none, some .movie⟩], 9⟩ =
      Except.ok (8,
        ⟨[⟨1, "films", "/data", .movie⟩],
         [⟨7, 1, "Alien", none, none, none, some "1979", none, none, some .movie⟩,
          ⟨8, 1, "Dune", none, none, none, some "2021", none, none, some .movie⟩], 9⟩) :=
  ⟨(insertableMedia_insert_or_get
      ⟨1, "Dune", none, none, none, "2021", none, none, .movie⟩
      ⟨[⟨1, "films", "/data", .movie⟩],
       [⟨7, 1, "Alien", none, none, none, some "1979", none, none, some .movie⟩], 8⟩
      (by rfl) (by decide)).2.1 (by rfl),
   (insertableMedia_insert_or_get
      ⟨1, "Dune", none, none, none, "2021", none, none, .movie⟩
      ⟨[⟨1, "films", "/data", .movie⟩],
       [⟨7, 1, "Alien", none, none, none, some "1979", none, none, some .movie⟩,
        ⟨8, 1, "Dune", none, none, none, some "2021", none, none, some .movie⟩], 9⟩
      (by rfl) (by decide)).1
      ⟨8, 1, "Dune", none, none, none, some "2021", none, none, some .movie⟩ (by rfl)⟩

end DimMedia

namespace DimAuth

/-- C4 counterexample: with two claimed invites stored in descending
creation order (and no unclaimed one), the listing returned to an owner
is exactly the claimed group, and that group is not ordered by creation
time ascending — the second query carries no `ORDER BY` clause. -/
theorem get_all_invites_claimed_group_unsorted :
    get_all_invites ⟨"admin", ["owner"]⟩
        ⟨[⟨"u1", "p", ["owner"], "a"⟩, ⟨"u2", "p", ["user"], "b"⟩],
          [⟨"a", 2⟩, ⟨"b", 1⟩]⟩ false false =
      Except.ok [⟨"a", 2, some "u1"⟩, ⟨"b", 1, some "u2"⟩] ∧
    ¬ List.Sorted rowLe [⟨"a", 2, some "u1"⟩, ⟨"b", 1, some "u2"⟩] := by
  refine ⟨by rfl, fun h => ?_⟩
  have h21 := List.rel_of_sorted_cons h _ (List.mem_singleton.mpr rfl)
  exact absurd h21 (by decide)

/-- C4 (amended): the invite listing returned to an owner is the
unclaimed group followed by the claimed group; the unclaimed group is
ordered by creation time ascending (its query has `ORDER BY created
ASC`), while the claimed group comes back in storage order of the join —
its query has no `ORDER BY`, so no within-group ordering is guaranteed
there. -/
theorem get_all_invites_groups_order (user : Claims) (db : Db)
    (h : user.has_role "owner" = true) :
    get_all_invites user db false false =
      Except.ok (unclaimedQuery db ++ claimedQuery db) ∧
    List.Sorted rowLe (unclaimedQuery db) := by
  constructor
  · simp [get_all_invites, h, fetch_all, unwrap_or_default]
  · exact List.Pairwise.map _ (fun a b hab => hab)
      (List.sorted_insertionSort inviteLe _)

/-- C4 amended witness: the listing at a concrete database with one
unclaimed and one claimed invite. -/
theorem get_all_invites_groups_order_witness :
    get_all_invites ⟨"admin", ["owner"]⟩
        ⟨[⟨"u1", "p", ["owner"], "a"⟩], [⟨"a", 2⟩, ⟨"b", 1⟩]⟩ false false =
      Except.ok (unclaimedQuery ⟨[⟨"u1", "p", ["owner"], "a"⟩], [⟨"a", 2⟩, ⟨"b", 1⟩]⟩ ++
        claimedQuery ⟨[⟨"u1", "p", ["owner"], "a"⟩], [⟨"a", 2⟩, ⟨"b", 1⟩]⟩) :=
  (get_all_invites_groups_order ⟨"admin", ["owner"]⟩
    ⟨[⟨"u1", "p", ["owner"], "a"⟩], [⟨"a", 2⟩, ⟨"b", 1⟩]⟩ (by rfl)).1

/-- C5 counterexample: when both storage fetches fail, `get_all_invites`
still answers the owner with `Ok []` — `unwrap_or_default` swallows the
errors — even though the true listing (one unclaimed invite) is
non-empty, so no error is propagated. -/
theorem get_all_invites_swallows_error :
    get_all_invites ⟨"admin", ["owner"]⟩ ⟨[], [⟨"a", 1⟩]⟩ true true = Except.ok [] ∧
    unclaimedQuery ⟨[], [⟨"a", 1⟩]⟩ = [⟨"a", 1, none⟩] := by
  exact ⟨rfl, rfl⟩

/-- C5 (amended): storage errors of the two listing queries never reach
the owner — each failing fetch silently degrades to the empty group via
`unwrap_or_default`, so the handler always answers `Ok`, with the partial
or empty concatenation of whichever groups were fetched. -/
theorem get_all_invites_no_error_propagation (user : Claims) (db : Db)
    (fail1 fail2 : Bool) (h : user.has_role "owner" = true) :
    get_all_invites user db fail1 fail2 =
      Except.ok ((if fail1 then [] else unclaimedQuery db) ++
        (if fail2 then [] else claimedQuery db)) := by
  cases fail1 <;> cases fail2 <;>
    simp [get_all_invites, h, fetch_all, unwrap_or_default]

/-- C5 amended witness: with the first fetch failing and the second
succeeding, the owner receives the partial listing with no error. -/
theorem get_all_invites_no_error_propagation_witness :
    get_all_invites ⟨"admin", ["owner"]⟩
        ⟨[⟨"u1", "p", ["owner"], "a"⟩], [⟨"a", 2⟩, ⟨"b", 1⟩]⟩ true false =
      Except.ok ((if true then [] else
          unclaimedQuery ⟨[⟨"u1", "p", ["owner"], "a"⟩], [⟨"a", 2⟩, ⟨"b", 1⟩]⟩) ++
        (if false then [] else
          claimedQuery ⟨[⟨"u1", "p", ["owner"], "a"⟩], [⟨"a", 2⟩, ⟨"b", 1⟩]⟩)) :=
  get_all_invites_no_error_propagation ⟨"admin", ["owner"]⟩
    ⟨[⟨"u1", "p", ["owner"], "a"⟩], [⟨"a", 2⟩, ⟨"b", 1⟩]⟩ true false (by rfl)

/-- A successful `User::get` returns the row keyed by the requested
username. -/
theorem User.get_ok_username (db : Db) (username : String) (u : UserRow)
    (h : User.get db username = Except.ok u) : u.username = username := by
  simp only [User.get] at h
  cases hf : db.users.find? (fun x => x.username == username) with
  | some v =>
      rw [hf] at h
      have hv : v = u := by simpa using h
      have := List.find?_some hf
      rw [hv] at this
      simpa using this
  | none =>
      rw [hf] at h
      exact absurd h (by simp)

/-- Appending a user whose claimed invite differs from `t`, and any new
invite row, preserves the valid-unclaimed status of `t`. -/
theorem isValidUnclaimed_append (db : Db) (t : String) (newu : UserRow)
    (newi : InviteRow) (hvalid : isValidUnclaimed db t = true)
    (hne : (newu.claimed_invite == t) = false) :
    isValidUnclaimed ⟨db.users ++ [newu], db.invites ++ [newi]⟩ t = true := by
  have ha : db.invites.any (fun i => i.id == t) = true := by
    by_contra hc
    have hc' : db.invites.any (fun i => i.id == t) = false := by
      simpa using hc
    simp [isValidUnclaimed, hc'] at hvalid
  have hb' : db.users.any (fun u => u.claimed_invite == t) = false := by
    by_contra hc
    have hc' : db.users.any (fun u => u.claimed_invite == t) = true := by
      simpa using hc
    simp [isValidUnclaimed, hc'] at hvalid
  simp [isValidUnclaimed, List.any_append, ha, hb', hne]

/-- C10: with forwarded auth enabled and no user bearing the asserted
username — the empty database included — `headers_login` creates the
account with roles exactly `["user"]` (never `"owner"`) and a freshly
synthesized invite as its claimed invite, bypassing the invite gate of
ordinary registration; every invite that was valid-unclaimed beforehand
is still valid-unclaimed afterwards, so no pre-existing invite is
consumed. -/
theorem headers_login_create_user_role (pw fresh : String) (now : Int)
    (username : String) (db : Db)
    (habs : db.users.any (fun u => u.username == username) = false)
    (hfresh : db.invites.any (fun i => i.id == fresh) = false) :
    headers_login true pw fresh now username db =
      (Except.ok ⟨true, "token", jwt_generate username ["user"]⟩,
        ⟨db.users ++ [⟨username, pw, ["user"], fresh⟩],
          db.invites ++ [⟨fresh, now⟩]⟩) ∧
    (∀ i, i ∈ db.invites → isValidUnclaimed db i.id = true →
      isValidUnclaimed
        ⟨db.users ++ [⟨username, pw, ["user"], fresh⟩],
          db.invites ++ [⟨fresh, now⟩]⟩ i.id = true) := by
  have hnone : db.users.find? (fun u => u.username == username) = none :=
    List.find?_eq_none.mpr (fun x hx => by
      simpa using List.any_eq_false.mp habs x hx)
  constructor
  · simp [headers_login, User.get, hnone, Login.new_invite,
      InsertableUser.insert, habs]
  · intro i hi hval
    have h1 : i.id ≠ fresh := by
      simpa using List.any_eq_false.mp hfresh i hi
    exact isValidUnclaimed_append db i.id ⟨username, pw, ["user"], fresh⟩
      ⟨fresh, now⟩ hval (beq_eq_false_iff_ne.mpr (Ne.symm h1))

/-- C10 witness: against the empty database (no users, no invites — the
state ordinary registration would treat as bootstrap), the forwarded-auth
bridge still creates a `["user"]` account with a synthesized invite. -/
theorem headers_login_create_user_role_witness :
    headers_login true "rndpw" "inv1" 7 "alice" ⟨[], []⟩ =
      (Except.ok ⟨true, "token", jwt_generate "alice" ["user"]⟩,
        ⟨[⟨"alice", "rndpw", ["user"], "inv1"⟩], [⟨"inv1", 7⟩]⟩) :=
  (headers_login_create_user_role "rndpw" "inv1" 7 "alice" ⟨[], []⟩
    (by rfl) (by rfl)).1

/-- C7: every successful forwarded-auth login (setting enabled) replies
with a redirect carrying the issued token named for the session token:
on the existing-user branch as the `Set-Cookie` header holding the
`token=` cookie with a token issued for the asserted username and that
user's stored roles; on the creation branch as the `token` header holding
a token issued for the asserted username and the created account's roles
`["user"]`, the created row being persisted. -/
theorem headers_login_token_transport (pw fresh : String) (now : Int)
    (username : String) (db : Db) :
    ∀ resp db2, headers_login true pw fresh now username db = (Except.ok resp, db2) →
      resp.is_redirect = true ∧
      ((resp.header_name = "Set-Cookie" ∧
        ∃ u, User.get db username = Except.ok u ∧ u.username = username ∧
          resp.header_value = "token=" ++ jwt_generate username u.roles) ∨
       (resp.header_name = "token" ∧
        resp.header_value = jwt_generate username ["user"] ∧
        (⟨username, pw, ["user"], fresh⟩ : UserRow) ∈ db2.users)) := by
  intro resp db2 h
  cases hf : db.users.find? (fun u => u.username == username) with
  | some u =>
      have hget : User.get db username = Except.ok u := by simp [User.get, hf]
      rw [show headers_login true pw fresh now username db =
            (Except.ok ⟨true, "Set-Cookie",
              "token=" ++ jwt_generate u.username u.roles⟩, db) by
          simp [headers_login, hget]] at h
      have h' : (⟨true, "Set-Cookie",
          "token=" ++ jwt_generate u.username u.roles⟩ : HLResp) = resp ∧ db = db2 := by
        simpa using h
      have hu : u.username = username := User.get_ok_username db username u hget
      rw [← h'.1]
      exact ⟨rfl, Or.inl ⟨rfl, u, hget, hu, by rw [hu]⟩⟩
  | none =>
      have hany : db.users.any (fun u => u.username == username) = false :=
        List.any_eq_false.mpr (fun x hx => by
          simpa using List.find?_eq_none.mp hf x hx)
      rw [show headers_login true pw fresh now username db =
            (Except.ok ⟨true, "token", jwt_generate username ["user"]⟩,
              ⟨db.users ++ [⟨username, pw, ["user"], fresh⟩],
                db.invites ++ [⟨fresh, now⟩]⟩) by
          simp [headers_login, User.get, hf, Login.new_invite,
            InsertableUser.insert, hany]] at h
      have h' : (⟨true, "token", jwt_generate username ["user"]⟩ : HLResp) = resp ∧
          (⟨db.users ++ [⟨username, pw, ["user"], fresh⟩],
            db.invites ++ [⟨fresh, now⟩]⟩ : Db) = db2 := by
        simpa using h
      rw [← h'.1]
      refine ⟨rfl, Or.inr ⟨rfl, rfl, ?_⟩⟩
      rw [← h'.2]
      simp

/-- C7 witness: the two branches at concrete inputs — an existing user
gets the `Set-Cookie` token cookie, a fresh username gets the `token`
header with its account persisted. -/
theorem headers_login_token_transport_witness :
    ((⟨true, "Set-Cookie", "token=" ++ jwt_generate "alice" ["owner"]⟩ : HLResp).is_redirect
        = true) ∧
    ((⟨true, "token", jwt_generate "bob" ["user"]⟩ : HLResp).is_redirect = true) :=
  ⟨(headers_login_token_transport "x" "f" 9 "alice"
      ⟨[⟨"alice", "pw", ["owner"], "inv0"⟩], []⟩
      ⟨true, "Set-Cookie", "token=" ++ jwt_generate "alice" ["owner"]⟩
      ⟨[⟨"alice", "pw", ["owner"], "inv0"⟩], []⟩ (by rfl)).1,
   (headers_login_token_transport "rnd" "f2" 9 "bob" ⟨[], []⟩
      ⟨true, "token", jwt_generate "bob" ["user"]⟩
      ⟨[⟨"bob", "rnd", ["user"], "f2"⟩], [⟨"f2", 9⟩]⟩ (by rfl)).1⟩

/-- C6: forwarded-auth login is idempotent — two successive calls with
the same asserted username (setting enabled) leave exactly one persisted
user with that username, the second call changes nothing (it hits the
exists branch), and both calls succeed carrying a token issued for that
username. -/
theorem headers_login_idempotent (pw1 pw2 fresh1 fresh2 : String) (now1 now2 : Int)
    (username : String) (db : Db)
    (hkey : (db.users.filter (fun u => u.username == username)).length ≤ 1) :
    ∀ r1 db1 r2 db2,
      headers_login true pw1 fresh1 now1 username db = (r1, db1) →
      headers_login true pw2 fresh2 now2 username db1 = (r2, db2) →
      db2 = db1 ∧
      (db1.users.filter (fun u => u.username == username)).length = 1 ∧
      (∃ roles1 resp1, r1 = Except.ok resp1 ∧
        (resp1.header_value = jwt_generate username roles1 ∨
         resp1.header_value = "token=" ++ jwt_generate username roles1)) ∧
      (∃ roles2 resp2, r2 = Except.ok resp2 ∧
        (resp2.header_value = jwt_generate username roles2 ∨
         resp2.header_value = "token=" ++ jwt_generate username roles2)) := by
  intro r1 db1 r2 db2 h1 h2
  cases hf : db.users.find? (fun u => u.username == username) with
  | some u =>
      have hget : User.get db username = Except.ok u := by simp [User.get, hf]
      have hu : u.username = username := User.get_ok_username db username u hget
      have e1 : headers_login true pw1 fresh1 now1 username db =
          (Except.ok ⟨true, "Set-Cookie",
            "token=" ++ jwt_generate u.username u.roles⟩, db) := by
        simp [headers_login, hget]
      rw [e1] at h1
      have h1' : Except.ok (⟨true, "Set-Cookie",
          "token=" ++ jwt_generate u.username u.roles⟩ : HLResp) = r1 ∧ db = db1 := by
        simpa using h1
      have e2 : headers_login true pw2 fresh2 now2 username db =
          (Except.ok ⟨true, "Set-Cookie",
            "token=" ++ jwt_generate u.username u.roles⟩, db) := by
        simp [headers_login, hget]
      rw [← h1'.2, e2] at h2
      have h2' : Except.ok (⟨true, "Set-Cookie",
          "token=" ++ jwt_generate u.username u.roles⟩ : HLResp) = r2 ∧ db = db2 := by
        simpa using h2
      have hp := List.find?_some hf
      have hmem : u ∈ db.users.filter (fun x => x.username == username) :=
        List.mem_filter.mpr ⟨List.mem_of_find?_eq_some hf, hp⟩
      have hpos : 0 < (db.users.filter (fun x => x.username == username)).length :=
        List.length_pos.mpr (by
          intro hnil
          rw [hnil] at hmem
          exact absurd hmem (List.not_mem_nil u))
      refine ⟨h2'.2.symm.trans h1'.2, ?_, ?_, ?_⟩
      · rw [← h1'.2]
        exact le_antisymm hkey hpos
      · exact ⟨u.roles, _, h1'.1.symm, Or.inr (by rw [hu])⟩
      · exact ⟨u.roles, _, h2'.1.symm, Or.inr (by rw [hu])⟩
  | none =>
      have hany : db.users.any (fun u => u.username == username) = false :=
        List.any_eq_false.mpr (fun x hx => by
          simpa using List.find?_eq_none.mp hf x hx)
      have e1 : headers_login true pw1 fresh1 now1 username db =
          (Except.ok ⟨true, "token", jwt_generate username ["user"]⟩,
            ⟨db.users ++ [⟨username, pw1, ["user"], fresh1⟩],
              db.invites ++ [⟨fresh1, now1⟩]⟩) := by
        simp [headers_login, User.get, hf, Login.new_invite,
          InsertableUser.insert, hany]
      rw [e1] at h1
      have h1' : Except.ok (⟨true, "token",
          jwt_generate username ["user"]⟩ : HLResp) = r1 ∧
          (⟨db.users ++ [⟨username, pw1, ["user"], fresh1⟩],
            db.invites ++ [⟨fresh1, now1⟩]⟩ : Db) = db1 := by
        simpa using h1
      have hget1 : User.get
          (⟨db.users ++ [⟨username, pw1, ["user"], fresh1⟩],
            db.invites ++ [⟨fresh1, now1⟩]⟩ : Db) username =
          Except.ok ⟨username, pw1, ["user"], fresh1⟩ := by
        simp [User.get, hf]
      have e2 : headers_login true pw2 fresh2 now2 username
          (⟨db.users ++ [⟨username, pw1, ["user"], fresh1⟩],
            db.invites ++ [⟨fresh1, now1⟩]⟩ : Db) =
          (Except.ok ⟨true, "Set-Cookie",
            "token=" ++ jwt_generate username ["user"]⟩,
            ⟨db.users ++ [⟨username, pw1, ["user"], fresh1⟩],
              db.invites ++ [⟨fresh1, now1⟩]⟩) := by
        simp [headers_login, hget1]
      rw [← h1'.2, e2] at h2
      have h2' : Except.ok (⟨true, "Set-Cookie",
          "token=" ++ jwt_generate username ["user"]⟩ : HLResp) = r2 ∧
          (⟨db.users ++ [⟨username, pw1, ["user"], fresh1⟩],
            db.invites ++ [⟨fresh1, now1⟩]⟩ : Db) = db2 := by
        simpa using h2
      have hnil : db.users.filter (fun u => u.username == username) = [] :=
        List.filter_eq_nil_iff.mpr (List.find?_eq_none.mp hf)
      refine ⟨h2'.2.symm.trans h1'.2, ?_, ?_, ?_⟩
      · rw [← h1'.2]
        simp [List.filter_append, hnil]
      · exact ⟨["user"], _, h1'.1.symm, Or.inl rfl⟩
      · exact ⟨["user"], _, h2'.1.symm, Or.inr rfl⟩

/-- C6 witness: two successive forwarded-auth logins for `alice` against
the empty database — the first call creates the account, the second hits
the exists branch, leaving exactly one `alice` row, and both calls
succeed with a token for `alice`. -/
theorem headers_login_idempotent_witness :
    (⟨[⟨"alice", "pw1", ["user"], "f1"⟩], [⟨"f1", 7⟩]⟩ : Db) =
        ⟨[⟨"alice", "pw1", ["user"], "f1"⟩], [⟨"f1", 7⟩]⟩ ∧
    ((⟨[⟨"alice", "pw1", ["user"], "f1"⟩], [⟨"f1", 7⟩]⟩ : Db).users.filter
        (fun u => u.username == "alice")).length = 1 ∧
    (∃ roles1 resp1,
      (headers_login true "pw1" "f1" 7 "alice" ⟨[], []⟩).1 = Except.ok resp1 ∧
      (resp1.header_value = jwt_generate "alice" roles1 ∨
       resp1.header_value = "token=" ++ jwt_generate "alice" roles1)) ∧
    (∃ roles2 resp2,
      (headers_login true "pw2" "f2" 8 "alice"
          ⟨[⟨"alice", "pw1", ["user"], "f1"⟩], [⟨"f1", 7⟩]⟩).1 = Except.ok resp2 ∧
      (resp2.header_value = jwt_generate "alice" roles2 ∨
       resp2.header_value = "token=" ++ jwt_generate "alice" roles2)) :=
  headers_login_idempotent "pw1" "pw2" "f1" "f2" 7 8 "alice" ⟨[], []⟩
    (by decide) _ _ _ _ (by rfl) (by rfl)

end DimAuth
